import Mathlib

/-!
Shallow embedding of the uPDFParser core (src/deps/uPDFParser) used by knock.
Byte sequences are modelled as `List Char`, one `Char` per byte; offsets are
list positions.  Machine `int`/`off_t` values are modelled as `Int`
(the 32-bit range check of `std::stoi` is modelled explicitly where the source can
throw `std::out_of_range`).
-/

namespace UPDF

abbrev Bytes := List Char

/-- The PARSING_ERROR enumeration of uPDFParser_common.h. -/
inductive PdfErr where
  | unableToOpenFile
  | truncatedFile
  | invalidHeader
  | invalidLine
  | invalidFooter
  | invalidDictionary
  | invalidName
  | invalidBoolean
  | invalidNumber
  | invalidStream
  | invalidToken
  | invalidObject
  | invalidTrailer
  | invalidHexaString
  | notImplemented
  | ioError
  deriving DecidableEq, Repr

/-- The std exceptions `std::stoi`/`std::stof` can throw. -/
inductive StdExc where
  | invalidArg
  | outOfRange
  deriving DecidableEq, Repr

/-- An error escaping a parser routine: either a uPDFParser::Exception or an
uncaught std exception propagating out of `std::stoi`/`std::stof`. -/
inductive CppError where
  | pdf (e : PdfErr)
  | std (e : StdExc)
  deriving DecidableEq, Repr

/-- The non-dictionary state of class Stream (uPDFTypes.h 289-317).  The
`Dictionary& dict` member references the dictionary of the enclosing Object and is
therefore kept alongside, not inside, this record. -/
structure StreamData where
  startOffset : Int
  endOffset : Int
  data : Option Bytes
  dataLength : Nat
  freeData : Bool
  fd : Int
  deriving DecidableEq, Repr

/-- The DataType class hierarchy (uPDFTypes.h).  A Real keeps the source text
of its mantissa (with the sign already applied, as tokenToNumber negates the
parsed float): no claim depends on the std::to_string float formatting.
Dictionary entries are `Option Value` because parseDictionary stores a null
pointer for a key immediately followed by `>>`. -/
inductive Value where
  | boolean (b : Bool)
  | integer (v : Int) (signed : Bool)
  | real (tok : String) (signed : Bool)
  | name (v : String)
  | string (v : String)
  | hexaString (v : String)
  | reference (objectId generationNumber : Int)
  | array (xs : List Value)
  | dict (d : List (String × Option Value))
  | stream (sd : StreamData)
  | null

/-- A std::map<std::string, DataType*>: association list kept sorted by key
(std::map iterates in key order), entries possibly null. -/
abbrev Dict := List (String × Option Value)

/-- Lookup in a std::map (find). -/
def dictFind : Dict → String → Option (Option Value)
  | [], _ => none
  | (k, v) :: t, key => if k = key then some v else dictFind t key

/-- Dictionary::hasKey — `_value.count(key)`, null entries included. -/
def dictHasKey (d : Dict) (k : String) : Bool := (dictFind d k).isSome

/-- Dictionary::addData / std::map operator[] assignment: insert or
overwrite, keeping the keys sorted. -/
def dictInsert : Dict → String → Option Value → Dict
  | [], key, v => [(key, v)]
  | (k, w) :: t, key, v =>
    if k = key then (key, v) :: t
    else if key < k then (key, v) :: (k, w) :: t
    else (k, w) :: dictInsert t key v

/-- Dictionary::deleteKey / std::map erase (keys are unique in a map). -/
def dictDelete : Dict → String → Dict
  | [], _ => []
  | (k, w) :: t, key => if k = key then t else (k, w) :: dictDelete t key

mutual
/-- DataType::clone for each subclass.  Stream::clone constructs with
freeData=false (and the constructor forces false regardless). -/
def Value.clone : Value → Value
  | .boolean b => .boolean b
  | .integer v s => .integer v s
  | .real t s => .real t s
  | .name v => .name v
  | .string v => .string v
  | .hexaString v => .hexaString v
  | .reference i g => .reference i g
  | .array xs => .array (cloneList xs)
  | .dict d => .dict (cloneDict d)
  | .stream sd => .stream { sd with freeData := false }
  | .null => .null

/-- Array::clone body: clone every element. -/
def cloneList : List Value → List Value
  | [] => []
  | v :: t => Value.clone v :: cloneList t

/-- Dictionary::clone body: clone the value of every entry.  A null entry would be
dereferenced (undefined behaviour) in C++; it is kept null here and never
arises in the claims. -/
def cloneDict : Dict → Dict
  | [] => []
  | (k, some v) :: t => (k, some (Value.clone v)) :: cloneDict t
  | (k, none) :: t => (k, none) :: cloneDict t
end

/-- The value kinds whose serialization already starts with a space
(Array::str special-cases INTEGER, REAL, REFERENCE). -/
def isSpacedType : Value → Bool
  | .integer _ _ => true
  | .real _ _ => true
  | .reference _ _ => true
  | _ => false

/-- String::str escaping: '(' and ')' not already preceded by '\' get
escaped; `prev` is the previous raw character ('\0' initially). -/
def escapeParens : List Char → Char → List Char
  | [], _ => []
  | c :: t, prev =>
    (if (c = '(' ∨ c = ')') ∧ prev ≠ '\\' then ['\\', c] else [c]) ++ escapeParens t c

/-- Real::str sign test `_value >= 0`, on the signed source text (the text of
a negative Real starts with '-'; "-0.0" is the one divergence and is
unreachable from the claims). -/
def realNonNeg (t : String) : Bool := ¬ t.startsWith "-"

/-- Stream::str payload: the owned buffer, or a lazy read of
[startOffset, endOffset) from the source file `src` (Stream::data()). -/
def streamPayload (src : Bytes) (sd : StreamData) : String :=
  match sd.data with
  | some d => String.mk (d.take sd.dataLength)
  | none => String.mk ((src.drop sd.startOffset.toNat).take (sd.endOffset - sd.startOffset).toNat)

mutual
/-- The virtual str() of each DataType subclass (uPDFTypes.cpp / uPDFTypes.h).
`src` is the source file, needed only by lazy Streams. -/
def Value.str (src : Bytes) : Value → String
  | .boolean b => if b then " true" else " false"
  | .integer v s => " " ++ (if s ∧ 0 ≤ v then "+" else "") ++ toString v
  | .real t s => " " ++ (if s ∧ realNonNeg t then "+" else "") ++ t
  | .name v => v
  | .string v => "(" ++ String.mk (escapeParens v.data '\x00') ++ ")"
  | .hexaString v => "<" ++ v ++ ">"
  | .reference i g => " " ++ toString i ++ " " ++ toString g ++ " R"
  | .array xs =>
    let r := arrayStrFold src xs "["
    (if r.length = 1 then r ++ " " else r) ++ "]"
  | .dict d => dictStrFold src d "<<" ++ ">>\n"
  | .stream sd => "stream\n" ++ streamPayload src sd ++ "\nendstream\n"
  | .null => "null"

/-- Array::str loop. -/
def arrayStrFold (src : Bytes) (xs : List Value) (res : String) : String :=
  match xs with
  | [] => res
  | v :: t =>
    let piece := Value.str src v
    let res' :=
      if isSpacedType v then
        (if res.length > 1 then res ++ piece else res ++ piece.drop 1)
      else
        (if res.length > 1 then res ++ " " ++ piece else res ++ piece)
    arrayStrFold src t res'

/-- Dictionary::str loop (`/key` then the str of the value; a null slot emits just
`/key`). -/
def dictStrFold (src : Bytes) (d : Dict) (res : String) : String :=
  match d with
  | [] => res
  | (k, some v) :: t => dictStrFold src t (res ++ "/" ++ k ++ Value.str src v)
  | (k, none) :: t => dictStrFold src t (res ++ "/" ++ k)
end

/-! ### Object (uPDFObject.h) -/

/-- class Object: an indirect PDF object. -/
structure Object where
  objectId : Int
  generationNumber : Int
  offset : Int
  isNew : Bool
  indirectOffset : Int
  used : Bool
  dictionary : Dict
  data : List Value

/-- The six-parameter Object constructor (uPDFObject.h 50-55).  Its
initializer list writes `_used(true)`: the `used` argument is ignored. -/
def Object.mk6 (objectId generationNumber : Int) (offset : Int) (isNew : Bool)
    (indirectOffset : Int) (used : Bool) : Object :=
  { objectId := objectId, generationNumber := generationNumber, offset := offset,
    isNew := isNew, indirectOffset := indirectOffset, used := true,
    dictionary := [], data := [] }

/-- Object::setUsed. -/
def Object.setUsed (o : Object) (u : Bool) : Object := { o with used := u }

/-- The Object copy constructor (uPDFObject.h 64-82), also reached through
Object::clone(): copies identity, offsets and the used flag, forces
`_isNew = true`, and deep-copies the data vector and the dictionary. -/
def Object.copy (o : Object) : Object :=
  { objectId := o.objectId, generationNumber := o.generationNumber,
    offset := o.offset, isNew := true, indirectOffset := o.indirectOffset,
    used := o.used, dictionary := cloneDict o.dictionary,
    data := cloneList o.data }

/-- Object::isIndirect. -/
def Object.isIndirect (o : Object) : Bool := o.indirectOffset ≠ 0

/-- The `tmp[tmp.size()-1] == '\n' || == '\r'` test in Object::str (an empty
str never occurs: every Value serialization is non-empty). -/
def endsWithNL (s : String) : Bool :=
  match s.data.getLast? with
  | some c => c = '\n' ∨ c = '\r'
  | none => false

/-- The data loop of Object::str (uPDFParser.cpp 52-60): append the str of each value; any value ending in an EOL clears needLineReturn for good. -/
def objDataFold (src : Bytes) (vs : List Value) (res : String) (needLR : Bool) :
    String × Bool :=
  match vs with
  | [] => (res, needLR)
  | v :: t =>
    let tmp := Value.str src v
    objDataFold src t (res ++ tmp) (if endsWithNL tmp then false else needLR)

/-- The non-indirect body of Object::str (dictionary, `<<>>` placeholder,
data values, optional final newline). -/
def objectBody (src : Bytes) (o : Object) : String :=
  let start : String × Bool :=
    match o.dictionary, o.data with
    | e :: d, _ => (dictStrFold src (e :: d) "<<" ++ ">>\n", false)
    | [], [] => ("<<>>\n", false)
    | [], _ :: _ => ("", true)
  let r := objDataFold src o.data start.1 start.2
  r.1 ++ (if r.2 then "\n" else "")

/-- The `<id> <gen> obj\n` line opening the Object::str output. -/
def objHeaderS (o : Object) : String :=
  toString o.objectId ++ " " ++ toString o.generationNumber ++ " obj\n"

/-- Everything Object::str emits after the header line. -/
def objTail (src : Bytes) (o : Object) : String :=
  (if o.isIndirect then "   " ++ toString o.indirectOffset ++ "\n"
   else objectBody src o) ++ "endobj\n"

/-- Object::str (uPDFParser.cpp 31-69). -/
def Object.str (src : Bytes) (o : Object) : String :=
  objHeaderS o ++ objTail src o

/-! ### Tokenizer (Parser::nextToken, uPDFParser.cpp 160-289)

The loops are written with an explicit fuel argument (the wrappers pass
`src.length + 1`, enough for any run because the cursor advances at every
iteration); this keeps them structurally recursive and kernel-evaluable. -/

/-- The hard delimiters `" \t<>[]()/"`; sizeof includes the terminating NUL,
so '\0' is effectively a delimiter too. -/
def isDelim (c : Char) : Bool :=
  [' ', '\t', '<', '>', '[', ']', '(', ')', '/', '\x00'].contains c

/-- The whitespace-prefixed delimiters `"+-"` (plus the NUL terminator). -/
def isWSPrevDelim (c : Char) : Bool := ['+', '-', '\x00'].contains c

/-- The start delimiters `"<>[]()"` (plus the NUL terminator). -/
def isStartDelim (c : Char) : Bool :=
  ['<', '>', '[', ']', '(', ')', '\x00'].contains c

/-- First loop of finishLine: consume bytes until EOF or an EOL byte
(consumed). -/
def skipToEOLF : Nat → Bytes → Nat → Nat
  | 0, _, pos => pos
  | fuel + 1, src, pos =>
    match src.get? pos with
    | none => pos
    | some c => if c = '\n' ∨ c = '\r' then pos + 1 else skipToEOLF fuel src (pos + 1)

/-- finishLine (uPDFParser.cpp 140-158): skip to just past the first EOL
byte, then consume one more byte if it is also an EOL (supports CRLF and
LFCR). -/
def finishLine (src : Bytes) (pos : Nat) : Nat :=
  let p := skipToEOLF (src.length + 1) src pos
  match src.get? p with
  | some c => if c = '\n' ∨ c = '\r' then p + 1 else p
  | none => p

/-- The comment body loop of nextToken when readComment is set (uPDFParser.cpp
192-205).  `none` models the TRUNCATED_FILE exception. -/
def commentLoopF : Nat → Bytes → Bool → Nat → String → Char →
    Option (String × Nat × Char)
  | 0, _, _, pos, res, c => some (res, pos, c)
  | fuel + 1, src, eofT, pos, res, c =>
    match src.get? pos with
    | none => if eofT then none else some (res, pos, c)
    | some ch =>
      if ch = '\n' ∨ ch = '\r' then some (res, pos + 1, ch)
      else commentLoopF fuel src eofT (pos + 1) (res.push ch) c

/-- The main loop of nextToken.  Returns (token, cursor, curOffset, last byte
read); `none` models the TRUNCATED_FILE exception. -/
def ntLoopF : Nat → Bytes → Bool → Bool → Nat → String → Nat → Char →
    Option (String × Nat × Nat × Char)
  | 0, _, _, _, pos, res, cur, c => some (res, pos, cur, c)
  | fuel + 1, src, eofT, readC, pos, res, cur, c =>
    match src.get? pos with
    | none => if eofT then none else some (res, pos, cur, c)
    | some ch =>
      if ch = '%' then
        if readC then
          match commentLoopF (src.length + 1) src eofT (pos + 1) (res.push '%') ch with
          | none => none
          | some (res₂, pos₂, c₂) => some (res₂, pos₂, pos, c₂)
        else
          let pos₂ := finishLine src (pos + 1)
          if res.length ≠ 0 then some (res, pos₂, cur, ch)
          else ntLoopF fuel src eofT readC pos₂ res cur ch
      else if (ch = ' ' ∨ ch = '\t' ∨ ch = '\n' ∨ ch = '\r' ∨ ch = '\x00') ∧
          res.length = 0 then
        ntLoopF fuel src eofT readC (pos + 1) res cur ch
      else if ch = '\n' ∨ ch = '\r' then
        -- res is non-empty here (the empty case was consumed as whitespace)
        some (res, pos + 1, cur, ch)
      else if res.length ≠ 0 then
        if isDelim ch then some (res, pos, cur, ch)
        else if c = ' ' ∧ isWSPrevDelim ch then some (res, pos, cur, ch)
        else ntLoopF fuel src eofT readC (pos + 1) (res.push ch) cur ch
      else
        if isStartDelim ch then some (res.push ch, pos + 1, pos, ch)
        else ntLoopF fuel src eofT readC (pos + 1) (res.push ch) pos ch

/-- Result of Parser::nextToken: the token, the cursor after it, the member
curOffset (offset of the first byte of the token), and the member `c` (last byte
read, inspected by Parser::prevChar). -/
structure TokResult where
  tok : String
  pos : Nat
  cur : Nat
  c : Char
  deriving DecidableEq, Repr

/-- Parser::nextToken (uPDFParser.cpp 165-289), including the `<<`/`>>`
doubling step.  `none` models the TRUNCATED_FILE exception, the only
exception this function raises.  (When no token byte is read the C++ member
curOffset keeps its stale value; the model reports the starting cursor.) -/
def nextToken (src : Bytes) (pos : Nat) (eofT readC : Bool) : Option TokResult :=
  match ntLoopF (src.length + 1) src eofT readC pos "" pos '\x00' with
  | none => none
  | some (res, p, cur, c) =>
    if res = ">" ∨ res = "<" then
      match src.get? p with
      | some ch =>
        if ch = res.front then some ⟨res.push ch, p + 1, cur, ch⟩
        else some ⟨res, p, cur, ch⟩
      | none => some ⟨res, p, cur, c⟩
    else some ⟨res, p, cur, c⟩

/-! ### Number parsing (tokenToNumber, uPDFParser.cpp 71-94) -/

/-- The whitespace characters std::stoi/std::stof skip. -/
def isSpaceCpp (c : Char) : Bool :=
  [' ', '\t', '\n', '\x0B', '\x0C', '\r'].contains c

/-- Digit-run value. -/
def digitsVal (ds : List Char) : Int :=
  ds.foldl (fun a c => a * 10 + (Int.ofNat c.toNat - 48)) 0

/-- std::stoi: skip whitespace, optional sign, longest digit run; throws
invalid_argument when there is no digit, out_of_range outside the 32-bit
int range. -/
def stoiCpp (s : List Char) : Except StdExc Int :=
  let s₁ := s.dropWhile isSpaceCpp
  let negAndRest : Bool × List Char :=
    match s₁ with
    | '-' :: t => (true, t)
    | '+' :: t => (false, t)
    | _ => (false, s₁)
  let ds := negAndRest.2.takeWhile Char.isDigit
  if ds.isEmpty then .error .invalidArg
  else
    let v := if negAndRest.1 then -digitsVal ds else digitsVal ds
    if v < -(2 ^ 31) ∨ 2 ^ 31 - 1 < v then .error .outOfRange else .ok v

/-- Whether std::stof accepts the text (skip whitespace and sign; then a
digit, or a '.' followed by a digit).  "inf"/"nan" literals and the
out_of_range overflow of stof are not modelled: no claim depends on the
numeric value of a Real. -/
def stofOk (s : List Char) : Bool :=
  let s₁ := s.dropWhile isSpaceCpp
  let s₂ := match s₁ with
    | c :: t => if c = '+' ∨ c = '-' then t else s₁
    | [] => []
  match s₂ with
  | c :: rest =>
    c.isDigit || (c == '.' && (match rest with | d :: _ => d.isDigit | [] => false))
  | [] => false

/-- tokenToNumber (uPDFParser.cpp 71-94): if the token contains a '.', parse
as Real (prepending "0" when the '.' is at position 0) and negate on '-';
otherwise std::stoi, negate on '-'.  The value of a Real is kept as its (signed)
text.  Errors are the std exceptions escaping stoi/stof. -/
def tokenToNumber (token : String) (sign : Char) : Except StdExc Value :=
  if token.data.contains '.' then
    let token₁ := if token.data.head? = some '.' then "0" ++ token else token
    if stofOk token₁.data then
      .ok (.real (if sign = '-' then "-" ++ token₁ else token₁) (sign ≠ '\x00'))
    else .error .invalidArg
  else
    match stoiCpp token.data with
    | .error e => .error e
    | .ok v => .ok (.integer (if sign = '-' then -v else v) (sign ≠ '\x00'))

/-- Parser::parseNumberOrReference (uPDFParser.cpp 425-459).  `pos` is the
cursor just after the already-read first token.  Returns the value and the
new cursor.  Only std::invalid_argument from the second token's
tokenToNumber is caught; std::out_of_range (and any exception from the
first tokenToNumber) propagates, as does TRUNCATED_FILE from nextToken. -/
def parseNumberOrReference (src : Bytes) (pos : Nat) (token : String) :
    Except CppError (Value × Nat) :=
  match tokenToNumber token '\x00' with
  | .error e => .error (.std e)
  | .ok (.real t s) => .ok (.real t s, pos)
  | .ok (.integer n s) =>
    match nextToken src pos true false with
    | none => .error (.pdf .truncatedFile)
    | some r2 =>
      match nextToken src r2.pos true false with
      | none => .error (.pdf .truncatedFile)
      | some r3 =>
        match tokenToNumber r2.tok '\x00' with
        | .error .invalidArg => .ok (.integer n s, pos)
        | .error .outOfRange => .error (.std .outOfRange)
        | .ok (.integer g _) =>
          if r3.tok = "R" then .ok (.reference n g, r3.pos)
          else .ok (.integer n s, pos)
        | .ok _ => .ok (.integer n s, pos)
  | .ok v => .ok (v, pos)  -- unreachable: tokenToNumber yields Integer or Real

/-! ### Stream (uPDFTypes.h 289-317, uPDFTypes.cpp 121-163,
Parser::parseStream uPDFParser.cpp 576-657) -/

/-- The Stream constructor (uPDFTypes.h 292-297).  Its initializer list
writes `freeData(false)`: the `freeData` argument is ignored. -/
def Stream.ctor (startOffset endOffset : Int) (data : Option Bytes)
    (dataLength : Nat) (freeData : Bool) (fd : Int) : StreamData :=
  { startOffset := startOffset, endOffset := endOffset, data := data,
    dataLength := dataLength, freeData := false, fd := fd }

/-- Stream::setData (uPDFTypes.cpp 152-163): replace /Length in the
dictionary of the enclosing object (referenced by the stream) with the new byte
count and install the new buffer. -/
def Stream.setData (dict : Dict) (sd : StreamData) (data : Bytes)
    (dataLength : Nat) (freeData : Bool) : Dict × StreamData :=
  (dictInsert (dictDelete dict "Length") "Length"
     (some (.integer (Int.ofNat dataLength) false)),
   { sd with data := some data, dataLength := dataLength, freeData := freeData })

/-- Whether `pat` is a prefix of `l`. -/
def listStartsWith : List Char → List Char → Bool
  | _, [] => true
  | [], _ :: _ => false
  | a :: s, b :: p => a = b && listStartsWith s p

/-- memmem: index of the first occurrence of `pat` fully inside `hay`. -/
def findSubList : List Char → List Char → Option Nat
  | [], pat => if pat.isEmpty then some 0 else none
  | a :: t, pat =>
    if listStartsWith (a :: t) pat then some 0
    else (findSubList t pat).map (· + 1)

/-- The recovery scan of parseStream (uPDFParser.cpp 614-653): read
4096-byte chunks from `pos` and memmem "endstream" inside each chunk (an
occurrence straddling a chunk boundary is missed, as in the source).
Returns the absolute position of the match; `none` when a read returns no
bytes (the TRUNCATED_FILE exception).  Fuel as in the tokenizer. -/
def scanEndstreamF : Nat → Bytes → Nat → Option Nat
  | 0, _, _ => none
  | fuel + 1, src, pos =>
    let chunk := (src.drop pos).take 4096
    if chunk.isEmpty then none
    else
      match findSubList chunk "endstream".data with
      | some i => some (pos + i)
      | none => scanEndstreamF fuel src (pos + chunk.length)

/-- The backward walk before "endstream" (uPDFParser.cpp 631-648).  Note
that only '\r' bytes decrement endOffset: on '\n' (and on any other byte or
a failed read) the loop breaks before the for-update runs, leaving endOffset
unchanged. -/
def trimCRF : Nat → Bytes → Nat → Nat → Nat
  | 0, _, _, e => e
  | fuel + 1, src, startOffset, e =>
    if startOffset < e then
      match src.get? (e - 1) with
      | none => e
      | some c => if c = '\r' then trimCRF fuel src startOffset (e - 1) else e
    else e

/-- The startOffset of the stream payload: `pos` is the cursor just after
the `stream` token; a `\n` following a `\r` is consumed (uPDFParser.cpp
584-593). -/
def streamStart (src : Bytes) (pos : Nat) (prevC : Char) : Nat :=
  if prevC = '\r' then
    match src.get? pos with
    | some ch => if ch ≠ '\n' then pos else pos + 1
    | none => pos
  else pos

/-- The direct /Length attempt (uPDFParser.cpp 598-612): when /Length is an
Integer L, seek to startOffset+L and read a token; `endstream` means success
with endOffset = startOffset+L; any other token falls back (`.ok none`) to
the recovery scan; EOF inside nextToken raises TRUNCATED_FILE.  A negative
seek target models the failed lseek by reading from startOffset (the cursor
did not move).  A non-Integer /Length also falls back (a null /Length slot
would be a null-pointer dereference in C++). -/
def directAttempt (dict : Dict) (src : Bytes) (startOffset : Nat) (fd : Int) :
    Except PdfErr (Option (StreamData × Nat)) :=
  match dictFind dict "Length" with
  | some (some (.integer len _)) =>
    match nextToken src
        (if Int.ofNat startOffset + len < 0 then startOffset
         else (Int.ofNat startOffset + len).toNat) true false with
    | none => .error .truncatedFile
    | some r =>
      if r.tok = "endstream" then
        .ok (some (Stream.ctor (Int.ofNat startOffset)
          (Int.ofNat startOffset + len) none 0 false fd, r.pos))
      else .ok none
  | _ => .ok none

/-- The recovery scan (uPDFParser.cpp 614-656): chunked search for
"endstream" from startOffset; on a hit at `p`, strip trailing '\r' bytes for
the endOffset and leave the cursor at p+10 (just past `endstream\n`); with
no hit the failed read raises TRUNCATED_FILE. -/
def recoveryScan (src : Bytes) (startOffset : Nat) (fd : Int) :
    Except PdfErr (StreamData × Nat) :=
  match scanEndstreamF (src.length + 1) src startOffset with
  | none => .error .truncatedFile
  | some p =>
    .ok (Stream.ctor (Int.ofNat startOffset)
      (Int.ofNat (trimCRF (p + 1) src startOffset p)) none 0 false fd, p + 10)

/-- Parser::parseStream (uPDFParser.cpp 576-657).  `pos` is the cursor just
after the `stream` token, `prevC` the Parser::c member (last byte read by
nextToken), `fd` the input descriptor of the parser (stored in the Stream).
Returns the Stream and the final cursor.  (The C++ computes startOffset
before the /Length check; both are effect-free here, so the order is
immaterial.) -/
def parseStream (dict : Dict) (src : Bytes) (pos : Nat) (prevC : Char)
    (fd : Int) : Except PdfErr (StreamData × Nat) :=
  if ¬ dictHasKey dict "Length" then .error .invalidStream
  else
    match directAttempt dict src (streamStart src pos prevC) fd with
    | .error e => .error e
    | .ok (some r) => .ok r
    | .ok none => recoveryScan src (streamStart src pos prevC) fd

/-! ### Writer (Parser::write, uPDFParser.cpp 965-1045, and
Parser::writeUpdate, 883-963) -/

/-- Model of `std::setw(w)` with `std::setfill('0')`: left-pad with zeros to width
`w` (longer representations are not truncated). -/
def zeroPad (w : Nat) (n : Int) : String :=
  let s := toString n
  if s.length < w then String.mk (List.replicate (w - s.length) '0') ++ s else s

/-- The header emitted by the full rewrite (uPDFParser.cpp 975-980):
`%PDF-<major>.<minor>\r%` then the four binary-marker bytes and `\r\n`. -/
def headerBytes (vMajor vMinor : Int) : Bytes :=
  ("%PDF-" ++ toString vMajor ++ "." ++ toString vMinor ++ "\r%").data ++
  [Char.ofNat 0xe2, Char.ofNat 0xe3, Char.ofNat 0xcf, Char.ofNat 0xd3] ++
  '\r' :: ['\n']

/-- The fixed head of the xref accumulator in the full rewrite
(uPDFParser.cpp 986-989). -/
def xrefHead : Bytes :=
  ("xref" ++ "\n" ++ "0 1" ++ "\n" ++ "0000000000 65535 f" ++ "\r" ++ "\n").data

/-- The xref record of one object as accumulated by the full-rewrite loop
(uPDFParser.cpp 998-1004): `<id> 1\n` then `%010d %05d n|f\r\n`. -/
def xrefRow (o : Object) (curOffset : Nat) : Bytes :=
  (toString o.objectId ++ " 1" ++ "\n" ++ zeroPad 10 (Int.ofNat curOffset) ++ " " ++
   zeroPad 5 o.generationNumber ++ (if o.used then " n" else " f") ++ "\r" ++ "\n").data

/-- The test `(*object)["Type"]->str() == "/XRef"` guarded by hasKey (uPDFParser.cpp
1009; a null Type slot would be dereferenced in C++). -/
def isXRefObj (src : Bytes) (o : Object) : Bool :=
  match dictFind o.dictionary "Type" with
  | some (some v) => Value.str src v = "/XRef"
  | _ => false

/-- The serialized bytes of one object. -/
def objB (src : Bytes) (o : Object) : Bytes := (Object.str src o).data

/-- The per-object loop of the full rewrite (uPDFParser.cpp 991-1019):
record the current output size as curOffset, append the str of the object, append
its xref record, track maxId and the offset of the last /XRef-typed object.
(The source also rewrites the in-memory /Prev of an /XRef object *after*
serializing it; that mutation never reaches the emitted bytes and is not
part of the byte model.) -/
def writeLoop (src : Bytes) : List Object → Bytes → Bytes → Int → Int →
    Bytes × Bytes × Int × Int
  | [], out, xref, maxId, xrefStm => (out, xref, maxId, xrefStm)
  | o :: rest, out, xref, maxId, xrefStm =>
    let curOffset := out.length
    let maxId' := if o.objectId > maxId then o.objectId else maxId
    let xrefStm' := if isXRefObj src o then Int.ofNat curOffset else xrefStm
    writeLoop src rest (out ++ objB src o) (xref ++ xrefRow o curOffset) maxId' xrefStm'

/-- The trailer mutation of the full rewrite (uPDFParser.cpp 1026-1032). -/
def writeTrailerDict (trailer : Dict) (maxId xrefStm : Int) : Dict :=
  let t₁ := dictDelete (dictDelete trailer "Prev") "Size"
  let t₂ := dictInsert t₁ "Size" (some (.integer (maxId + 1) false))
  let t₃ := dictDelete t₂ "XRefStm"
  if xrefStm ≠ 0 then dictInsert t₃ "XRefStm" (some (.integer xrefStm false)) else t₃

/-- Parser::write with update=false: header, objects, xref table, mutated
trailer, startxref record. -/
def writeOutput (src : Bytes) (vMajor vMinor : Int) (objs : List Object)
    (trailer : Dict) : Bytes :=
  let r := writeLoop src objs (headerBytes vMajor vMinor) xrefHead 0 0
  let newXrefOffset := r.1.length
  r.1 ++ r.2.1 ++
  ("trailer" ++ "\n").data ++
  (dictStrFold src (writeTrailerDict trailer r.2.2.1 r.2.2.2) "<<" ++ ">>\n").data ++
  ("startxref" ++ "\n" ++ toString newXrefOffset ++ "\n" ++ "%%EOF").data

/-- Concatenated serializations of a list of objects. -/
def bodyBytes (src : Bytes) : List Object → Bytes
  | [] => []
  | o :: t => objB src o ++ bodyBytes src t

/-- The xref rows the loop accumulates when the output already holds `base`
bytes when the first object is written. -/
def rowsFrom (src : Bytes) (base : Nat) : List Object → Bytes
  | [] => []
  | o :: t => xrefRow o base ++ rowsFrom src (base + (objB src o).length) t

/-- Byte offset at which object `i` is written: `base` plus the sizes of the
objects before it. -/
def objOffsetAt (src : Bytes) (base : Nat) (objs : List Object) (i : Nat) : Nat :=
  base + (bodyBytes src (objs.take i)).length

/-! ### Trailer repair (Parser::repairTrailer, uPDFParser.cpp 834-848) -/

/-- The keys back-filled into the trailer. -/
def repairKeys : List String := ["Root", "Info", "Encrypt", "ID"]

/-- The copy `(*xrefObject)[key]->clone()` on the entry found for a key (a null slot
would be dereferenced in C++; kept null here, never reached by the claims). -/
def entryClone : Option (Option Value) → Option Value
  | some (some v) => some (Value.clone v)
  | some none => none
  | none => none

/-- One iteration of the repair loop. -/
def repairStep (x : Dict) (t : Dict) (k : String) : Dict :=
  if dictHasKey t k = false ∧ dictHasKey x k = true then
    dictInsert t k (entryClone (dictFind x k))
  else t

/-- Parser::repairTrailer: when an /XRef-typed object was seen, back-fill
each of Root, Info, Encrypt, ID absent from the trailer but present on that
object, as a deep copy.  Keys already present are never overwritten. -/
def repairTrailer (xrefObject : Option Dict) (trailer : Dict) : Dict :=
  match xrefObject with
  | none => trailer
  | some x => List.foldl (repairStep x) trailer repairKeys

/-! ### Incremental update trailer (Parser::writeUpdate, uPDFParser.cpp
912-950) -/

/-- The `maxId` accumulated by the writeUpdate loop over ALL objects
(the update before the isNew test at uPDFParser.cpp 923-926). -/
def maxIdOf (objs : List Object) : Int :=
  objs.foldl (fun m o => if o.objectId > m then o.objectId else m) 0

/-- The number of isNew objects (nbNewObjects). -/
def nbNewObjects (objs : List Object) : Nat := objs.countP (fun o => o.isNew)

/-- The trailer produced by writeUpdate: unchanged when there is no new
object (the function closes the file and returns, uPDFParser.cpp 935-939);
otherwise /Prev is deleted and re-added as the original xrefOffset when that
is not -1, and /Size is replaced by maxId+1. -/
def writeUpdateTrailer (objs : List Object) (trailer : Dict) (xrefOffset : Int) :
    Dict :=
  if nbNewObjects objs = 0 then trailer
  else
    let t₁ := dictDelete trailer "Prev"
    let t₂ := if xrefOffset ≠ -1 then
        dictInsert t₁ "Prev" (some (.integer xrefOffset false))
      else t₁
    let t₃ := dictDelete t₂ "Size"
    dictInsert t₃ "Size" (some (.integer (maxIdOf objs + 1) false))

/-! ### Body loop of Parser::parse (uPDFParser.cpp 774-800)

The loop is modelled over the sequence of tokens it reads itself via
nextToken(false); the sub-parsers each recognized token dispatches to
(parseXref, parseObject, parseStartXref) consume their own further input and
are abstracted as succeeding.  The claim under study concerns only the
secondLine tolerance: an unrecognized token is skipped (finishLine) exactly
when secondLine is still set, and secondLine is cleared after the first
iteration whatever the token was. -/

/-- The test `token[0] >= '1' && token[0] <= '9'`. -/
def isObjStart (t : String) : Bool :=
  match t.data with
  | c :: _ => '1' ≤ c && c ≤ '9'
  | [] => false

/-- A token the body loop does not recognize (falls into the else branch). -/
def invalidTok (t : String) : Bool :=
  !(t == "xref" || isObjStart t || t == "startxref")

/-- The body loop of Parser::parse: break on an empty token, dispatch
recognized tokens, tolerate an unrecognized token while secondLine is set,
fail with INVALID_LINE otherwise; secondLine is cleared after the first
iteration. -/
def parseBodyLoop : List String → Bool → Except PdfErr Unit
  | [], _ => .ok ()
  | t :: rest, secondLine =>
    if t.length = 0 then .ok ()
    else if invalidTok t = false then parseBodyLoop rest false
    else if secondLine then parseBodyLoop rest false
    else .error .invalidLine

/-! ### Dictionary lemmas -/

theorem dictFind_insert_self (d : Dict) (k : String) (v : Option Value) :
    dictFind (dictInsert d k v) k = some v := by
  induction d with
  | nil => simp [dictInsert, dictFind]
  | cons a t ih =>
    obtain ⟨a1, a2⟩ := a
    by_cases h1 : a1 = k
    · simp [dictInsert, h1, dictFind]
    · by_cases h2 : k < a1
      · simp [dictInsert, h1, h2, dictFind]
      · simp [dictInsert, h1, h2, dictFind, ih]

theorem dictFind_insert_ne (d : Dict) (k k' : String) (v : Option Value)
    (h : k' ≠ k) : dictFind (dictInsert d k' v) k = dictFind d k := by
  induction d with
  | nil => simp [dictInsert, dictFind, h]
  | cons a t ih =>
    obtain ⟨a1, a2⟩ := a
    simp only [dictInsert]
    split_ifs with h1 h2
    · subst h1
      simp [dictFind, h]
    · simp [dictFind, h]
    · simp [dictFind, ih]

theorem dictFind_delete_ne (d : Dict) (k k' : String) (h : k' ≠ k) :
    dictFind (dictDelete d k') k = dictFind d k := by
  induction d with
  | nil => simp [dictDelete]
  | cons a t ih =>
    obtain ⟨a1, a2⟩ := a
    simp only [dictDelete]
    split_ifs with h1
    · subst h1
      simp [dictFind, h]
    · simp [dictFind, ih]

theorem dictFind_eq_none_of_forall (t : Dict) (k : String)
    (h : ∀ a ∈ t, a.1 ≠ k) : dictFind t k = none := by
  induction t with
  | nil => rfl
  | cons a s ih =>
    obtain ⟨a1, a2⟩ := a
    have h1 : a1 ≠ k := h (a1, a2) (List.mem_cons_self _ _)
    simp only [dictFind, if_neg h1]
    exact ih (fun c hc => h c (List.mem_cons_of_mem _ hc))

/-- Keys of a std::map are unique (the model keeps them strictly sorted), so
deleting a key removes it. -/
theorem dictFind_delete_self (d : Dict) (k : String)
    (hwf : d.Pairwise (fun a b => a.1 < b.1)) :
    dictFind (dictDelete d k) k = none := by
  induction d with
  | nil => rfl
  | cons a t ih =>
    obtain ⟨a1, a2⟩ := a
    rw [List.pairwise_cons] at hwf
    simp only [dictDelete]
    split_ifs with h1
    · subst h1
      exact dictFind_eq_none_of_forall t a1 (fun c hc => ne_of_gt (hwf.1 c hc))
    · simp only [dictFind, if_neg h1]
      exact ih hwf.2

theorem dictHasKey_insert_of (d : Dict) (k k' : String) (v : Option Value)
    (h : dictHasKey d k = true) : dictHasKey (dictInsert d k' v) k = true := by
  by_cases hk : k' = k
  · subst hk
    simp [dictHasKey, dictFind_insert_self]
  · simpa [dictHasKey, dictFind_insert_ne d k k' v hk] using h

theorem dictHasKey_insert_self (d : Dict) (k : String) (v : Option Value) :
    dictHasKey (dictInsert d k v) k = true := by
  simp [dictHasKey, dictFind_insert_self]

/-! ### Claim theorems: Stream and Object constructors, copy, setData -/

/-- C8 (code evaluation at the failing input): the Stream constructor leaves
the freeData member false even when the freeData argument is true — the
initializer list (uPDFTypes.h 296) writes `freeData(false)`, so a buffer
handed to the constructor as owned is never freed by the destructor. -/
theorem stream_ctor_ignores_freeData (s e : Int) (d : Option Bytes) (n : Nat)
    (fd : Int) : (Stream.ctor s e d n true fd).freeData = false := rfl

/-- C9: the Object copy constructor produces an object with the same
(objectId, generationNumber), offset, indirectOffset and used flag, with
deep copies of the dictionary entries and the data values, and with isNew
always true, whatever the isNew of the source was. -/
theorem object_copy_spec (o : Object) :
    (Object.copy o).objectId = o.objectId ∧
    (Object.copy o).generationNumber = o.generationNumber ∧
    (Object.copy o).offset = o.offset ∧
    (Object.copy o).indirectOffset = o.indirectOffset ∧
    (Object.copy o).used = o.used ∧
    (Object.copy o).isNew = true ∧
    (Object.copy o).dictionary = cloneDict o.dictionary ∧
    (Object.copy o).data = cloneList o.data :=
  ⟨rfl, rfl, rfl, rfl, rfl, rfl, rfl, rfl⟩

/-- C10: the six-parameter Object constructor yields used() = true whatever
was passed for the used parameter; the flag changes only through setUsed. -/
theorem object_ctor_used_spec :
    (∀ (i g off : Int) (isNew : Bool) (ind : Int) (u : Bool),
        (Object.mk6 i g off isNew ind u).used = true) ∧
    (∀ (o : Object) (u : Bool), (o.setUsed u).used = u) :=
  ⟨fun _ _ _ _ _ _ => rfl, fun _ _ => rfl⟩

/-- C4: after setData(bytes, n) the dictionary of the stream maps /Length to
Integer n, and the serialization of the stream is `stream\n`, exactly the n
payload bytes, then `\nendstream\n`. -/
theorem setData_spec (dict : Dict) (sd : StreamData) (bytes : Bytes) (n : Nat)
    (freeData : Bool) (src : Bytes) (h : bytes.length = n) :
    dictFind (Stream.setData dict sd bytes n freeData).1 "Length"
      = some (some (.integer (Int.ofNat n) false)) ∧
    Value.str src (.stream (Stream.setData dict sd bytes n freeData).2)
      = "stream\n" ++ String.mk bytes ++ "\nendstream\n" := by
  constructor
  · exact dictFind_insert_self _ _ _
  · subst h
    simp [Value.str, Stream.setData, streamPayload]

/-- Witness for setData_spec: a two-byte buffer. -/
theorem setData_spec_witness :
    (['a', 'b'].length = 2) ∧
    (dictFind (Stream.setData [] (Stream.ctor 0 0 none 0 false 0) ['a', 'b'] 2 false).1
        "Length" = some (some (.integer (Int.ofNat 2) false)) ∧
     Value.str [] (.stream (Stream.setData [] (Stream.ctor 0 0 none 0 false 0)
        ['a', 'b'] 2 false).2)
        = "stream\n" ++ String.mk ['a', 'b'] ++ "\nendstream\n") :=
  ⟨rfl, setData_spec [] (Stream.ctor 0 0 none 0 false 0) ['a', 'b'] 2 false [] rfl⟩

/-! ### Trailer repair lemmas and claim C5 -/

theorem repairStep_find_ne (x t : Dict) (k k' : String) (h : k' ≠ k) :
    dictFind (repairStep x t k') k = dictFind t k := by
  unfold repairStep
  split_ifs with hc
  · exact dictFind_insert_ne t k k' _ h
  · rfl

theorem repairStep_hasKey_ne (x t : Dict) (k k' : String) (h : k' ≠ k) :
    dictHasKey (repairStep x t k') k = dictHasKey t k := by
  unfold dictHasKey
  rw [repairStep_find_ne x t k k' h]

theorem repairStep_find_self (x t : Dict) (k : String) :
    dictFind (repairStep x t k) k =
      if dictHasKey t k = false ∧ dictHasKey x k = true
      then some (entryClone (dictFind x k)) else dictFind t k := by
  unfold repairStep
  split_ifs with hc
  · exact dictFind_insert_self t k _
  · rfl

theorem repairStep_eq_of (x t : Dict) (k : String)
    (h : dictHasKey x k = true → dictHasKey t k = true) : repairStep x t k = t := by
  unfold repairStep
  split_ifs with hc
  · rw [h hc.2] at hc
    exact absurd hc.1 (by simp)
  · rfl

/-- After repair, each of the four keys reads back as the original trailer
entry when one was present, and as a clone of the entry of the xref object when
the trailer lacked it. -/
theorem dictFind_repairTrailer (x t : Dict) (k : String) (hk : k ∈ repairKeys) :
    dictFind (repairTrailer (some x) t) k =
      if dictHasKey t k = false ∧ dictHasKey x k = true
      then some (entryClone (dictFind x k)) else dictFind t k := by
  have hr : repairTrailer (some x) t =
      repairStep x (repairStep x (repairStep x (repairStep x t "Root") "Info")
        "Encrypt") "ID" := rfl
  simp only [repairKeys, List.mem_cons, List.not_mem_nil, or_false] at hk
  rcases hk with rfl | rfl | rfl | rfl
  · rw [hr, repairStep_find_ne _ _ _ _ (by decide),
      repairStep_find_ne _ _ _ _ (by decide),
      repairStep_find_ne _ _ _ _ (by decide), repairStep_find_self]
  · rw [hr, repairStep_find_ne _ _ _ _ (by decide),
      repairStep_find_ne _ _ _ _ (by decide), repairStep_find_self,
      repairStep_hasKey_ne _ _ _ _ (by decide),
      repairStep_find_ne _ _ _ _ (by decide)]
  · rw [hr, repairStep_find_ne _ _ _ _ (by decide), repairStep_find_self,
      repairStep_hasKey_ne _ _ _ _ (by decide),
      repairStep_hasKey_ne _ _ _ _ (by decide),
      repairStep_find_ne _ _ _ _ (by decide),
      repairStep_find_ne _ _ _ _ (by decide)]
  · rw [hr, repairStep_find_self,
      repairStep_hasKey_ne _ _ _ _ (by decide),
      repairStep_hasKey_ne _ _ _ _ (by decide),
      repairStep_hasKey_ne _ _ _ _ (by decide),
      repairStep_find_ne _ _ _ _ (by decide),
      repairStep_find_ne _ _ _ _ (by decide),
      repairStep_find_ne _ _ _ _ (by decide)]

/-- A second repair pass changes nothing. -/
theorem repairTrailer_idem (x t : Dict) :
    repairTrailer (some x) (repairTrailer (some x) t) = repairTrailer (some x) t := by
  have key : ∀ k, k ∈ repairKeys → dictHasKey x k = true →
      dictHasKey (repairTrailer (some x) t) k = true := by
    intro k hk hx
    unfold dictHasKey
    rw [dictFind_repairTrailer x t k hk]
    split_ifs with hc
    · simp
    · cases ht : dictHasKey t k with
      | false => exact absurd ⟨ht, hx⟩ hc
      | true => simpa [dictHasKey] using ht
  have hR : ∀ k, k ∈ repairKeys →
      repairStep x (repairTrailer (some x) t) k = repairTrailer (some x) t :=
    fun k hk => repairStep_eq_of x _ k (key k hk)
  have unfold4 : ∀ y : Dict, repairTrailer (some x) y =
      repairStep x (repairStep x (repairStep x (repairStep x y "Root") "Info")
        "Encrypt") "ID" := fun _ => rfl
  rw [unfold4 (repairTrailer (some x) t), hR "Root" (by decide),
    hR "Info" (by decide), hR "Encrypt" (by decide), hR "ID" (by decide)]

/-- C5: after parse, for each key in {Root, Info, Encrypt, ID}: a key already
present in the trailer is never overwritten; a key absent from the trailer
but present on the dictionary of the xref-stream object is added as a deep copy;
and repairing an already-repaired trailer makes no further change. -/
theorem repairTrailer_spec (x t : Dict) (k : String) (hk : k ∈ repairKeys) :
    (dictHasKey t k = true →
        dictFind (repairTrailer (some x) t) k = dictFind t k) ∧
    (dictHasKey t k = false → dictHasKey x k = true →
        dictFind (repairTrailer (some x) t) k = some (entryClone (dictFind x k))) ∧
    repairTrailer (some x) (repairTrailer (some x) t) = repairTrailer (some x) t := by
  refine ⟨?_, ?_, repairTrailer_idem x t⟩
  · intro ht
    rw [dictFind_repairTrailer x t k hk]
    simp [ht]
  · intro ht hx
    rw [dictFind_repairTrailer x t k hk]
    simp [ht, hx]

/-- Witness for repairTrailer_spec: an empty trailer and an xref object
carrying /Root. -/
theorem repairTrailer_spec_witness :
    ("Root" ∈ repairKeys) ∧
    ((dictHasKey ([] : Dict) "Root" = true →
        dictFind (repairTrailer (some [("Root", some (.reference 1 0))]) []) "Root"
          = dictFind ([] : Dict) "Root") ∧
     (dictHasKey ([] : Dict) "Root" = false →
        dictHasKey [("Root", some (.reference 1 0))] "Root" = true →
        dictFind (repairTrailer (some [("Root", some (.reference 1 0))]) []) "Root"
          = some (entryClone (dictFind [("Root", some (.reference 1 0))] "Root"))) ∧
     repairTrailer (some [("Root", some (.reference 1 0))])
        (repairTrailer (some [("Root", some (.reference 1 0))]) [])
       = repairTrailer (some [("Root", some (.reference 1 0))]) []) :=
  ⟨by decide, repairTrailer_spec [("Root", some (.reference 1 0))] [] "Root" (by decide)⟩

/-! ### Incremental-update trailer lemmas and claim C6 -/

/-- The maxId fold never goes below its start value. -/
theorem maxIdFold_ge (objs : List Object) (a : Int) :
    a ≤ objs.foldl (fun m o => if o.objectId > m then o.objectId else m) a := by
  induction objs generalizing a with
  | nil => exact le_refl a
  | cons o t ih =>
    refine le_trans ?_ (ih (if o.objectId > a then o.objectId else a))
    split_ifs with h
    · exact le_of_lt h
    · exact le_refl a

/-- Every object id is bounded by the maxId fold. -/
theorem maxIdFold_ub : ∀ (objs : List Object) (a : Int) (o : Object), o ∈ objs →
    o.objectId ≤ objs.foldl (fun m o => if o.objectId > m then o.objectId else m) a := by
  intro objs
  induction objs with
  | nil => intro a o ho; cases ho
  | cons o' t ih =>
    intro a o ho
    simp only [List.foldl_cons]
    rcases List.mem_cons.mp ho with rfl | hm
    · refine le_trans ?_ (maxIdFold_ge t (if o.objectId > a then o.objectId else a))
      split_ifs with h
      · exact le_refl _
      · exact le_of_not_lt h
    · exact ih _ o hm

/-- The maxId fold is its start value or the id of some object. -/
theorem maxIdFold_attained : ∀ (objs : List Object) (a : Int),
    objs.foldl (fun m o => if o.objectId > m then o.objectId else m) a = a ∨
    ∃ o ∈ objs, objs.foldl (fun m o => if o.objectId > m then o.objectId else m) a
      = o.objectId := by
  intro objs
  induction objs with
  | nil => intro a; exact Or.inl rfl
  | cons o t ih =>
    intro a
    simp only [List.foldl_cons]
    by_cases hgt : o.objectId > a
    · rw [if_pos hgt]
      rcases ih o.objectId with h | ⟨o', hm, h⟩
      · exact Or.inr ⟨o, List.mem_cons_self _ _, h⟩
      · exact Or.inr ⟨o', List.mem_cons_of_mem _ hm, h⟩
    · rw [if_neg hgt]
      rcases ih a with h | ⟨o', hm, h⟩
      · exact Or.inl h
      · exact Or.inr ⟨o', List.mem_cons_of_mem _ hm, h⟩

/-- C6: after write(update=true) with at least one isNew object, the emitted
trailer has /Prev equal to the xrefOffset recorded during parse when one was
(xrefOffset ≠ -1; no /Prev key otherwise), and /Size equal to
maxObjectId + 1 where maxObjectId ranges over ALL objects, not only the new
ones. -/
theorem writeUpdate_trailer_spec (objs : List Object) (trailer : Dict)
    (xrefOffset : Int) (hwf : trailer.Pairwise (fun a b => a.1 < b.1))
    (hnew : ∃ o ∈ objs, o.isNew = true)
    (hpos : ∀ o ∈ objs, 0 ≤ o.objectId) :
    (xrefOffset ≠ -1 →
        dictFind (writeUpdateTrailer objs trailer xrefOffset) "Prev"
          = some (some (.integer xrefOffset false))) ∧
    (xrefOffset = -1 →
        dictFind (writeUpdateTrailer objs trailer xrefOffset) "Prev" = none) ∧
    (∃ M : Int, dictFind (writeUpdateTrailer objs trailer xrefOffset) "Size"
          = some (some (.integer (M + 1) false)) ∧
        (∀ o ∈ objs, o.objectId ≤ M) ∧ (∃ o ∈ objs, o.objectId = M)) := by
  have hne0 : nbNewObjects objs ≠ 0 := by
    obtain ⟨o, hm, hn⟩ := hnew
    have : 0 < nbNewObjects objs := List.countP_pos_iff.mpr ⟨o, hm, by simp [hn]⟩
    omega
  unfold writeUpdateTrailer
  rw [if_neg hne0]
  refine ⟨?_, ?_, ?_⟩
  · intro hx
    rw [dictFind_insert_ne _ _ _ _ (by decide),
      dictFind_delete_ne _ _ _ (by decide), if_pos hx,
      dictFind_insert_self]
  · intro hx
    rw [dictFind_insert_ne _ _ _ _ (by decide),
      dictFind_delete_ne _ _ _ (by decide), if_neg (not_not_intro hx)]
    exact dictFind_delete_self trailer "Prev" hwf
  · refine ⟨maxIdOf objs, dictFind_insert_self _ _ _, ?_, ?_⟩
    · exact fun o ho => maxIdFold_ub objs 0 o ho
    · rcases maxIdFold_attained objs 0 with h0 | hex
      · obtain ⟨o, hm, _⟩ := hnew
        have hub : o.objectId ≤ maxIdOf objs := maxIdFold_ub objs 0 o hm
        have hz : maxIdOf objs = 0 := h0
        have h1 : 0 ≤ o.objectId := hpos o hm
        exact ⟨o, hm, by omega⟩
      · obtain ⟨o, hm, h⟩ := hex
        exact ⟨o, hm, h.symm⟩

/-- Witness for writeUpdate_trailer_spec: one new object with id 3, empty
trailer, original xrefOffset 100. -/
theorem writeUpdate_trailer_spec_witness :
    (([] : Dict).Pairwise (fun a b => a.1 < b.1) ∧
     (∃ o ∈ [Object.mk6 3 0 0 true 0 true], o.isNew = true) ∧
     (∀ o ∈ [Object.mk6 3 0 0 true 0 true], 0 ≤ o.objectId)) ∧
    (((100 : Int) ≠ -1 →
        dictFind (writeUpdateTrailer [Object.mk6 3 0 0 true 0 true] [] 100) "Prev"
          = some (some (.integer 100 false))) ∧
     ((100 : Int) = -1 →
        dictFind (writeUpdateTrailer [Object.mk6 3 0 0 true 0 true] [] 100) "Prev"
          = none) ∧
     (∃ M : Int,
        dictFind (writeUpdateTrailer [Object.mk6 3 0 0 true 0 true] [] 100) "Size"
          = some (some (.integer (M + 1) false)) ∧
        (∀ o ∈ [Object.mk6 3 0 0 true 0 true], o.objectId ≤ M) ∧
        (∃ o ∈ [Object.mk6 3 0 0 true 0 true], o.objectId = M))) :=
  ⟨⟨List.Pairwise.nil,
    ⟨Object.mk6 3 0 0 true 0 true, List.mem_singleton.mpr rfl, rfl⟩,
    fun o ho => by rw [List.mem_singleton] at ho; subst ho; decide⟩,
   writeUpdate_trailer_spec [Object.mk6 3 0 0 true 0 true] [] 100
     List.Pairwise.nil
     ⟨Object.mk6 3 0 0 true 0 true, List.mem_singleton.mpr rfl, rfl⟩
     (fun o ho => by rw [List.mem_singleton] at ho; subst ho; decide)⟩

/-! ### Parse body-loop tolerance (claim C7) -/

/-- A non-empty string has non-zero length. -/
theorem strLen_ne_zero (t : String) (h : t ≠ "") : ¬ t.length = 0 := by
  intro h0
  apply h
  cases t with
  | mk data =>
    cases data with
    | nil => rfl
    | cons c cs => simp [String.length] at h0

/-- Once secondLine is cleared, the loop fails with INVALID_LINE exactly when
some remaining token is unrecognized (no token being empty). -/
theorem parseBodyLoop_false_iff (toks : List String)
    (hne : ∀ t ∈ toks, t ≠ "") :
    parseBodyLoop toks false = .error .invalidLine ↔
      ∃ u ∈ toks, invalidTok u = true := by
  induction toks with
  | nil => simp [parseBodyLoop]
  | cons t rest ih =>
    have ht : t ≠ "" := hne t (List.mem_cons_self _ _)
    have hlen : ¬ t.length = 0 := strLen_ne_zero t ht
    have ih' := ih (fun u hu => hne u (List.mem_cons_of_mem _ hu))
    simp only [parseBodyLoop, if_neg hlen]
    by_cases hv : invalidTok t = false
    · rw [if_pos hv, ih']
      constructor
      · rintro ⟨u, hu, h⟩
        exact ⟨u, List.mem_cons_of_mem _ hu, h⟩
      · rintro ⟨u, hu, h⟩
        rcases List.mem_cons.mp hu with rfl | hu'
        · rw [hv] at h
          cases h
        · exact ⟨u, hu', h⟩
    · have hv' : invalidTok t = true := by
        revert hv
        cases invalidTok t <;> simp
      rw [if_neg hv]
      constructor
      · intro _
        exact ⟨t, List.mem_cons_self _ _, hv'⟩
      · intro _
        rfl

/-- C7: during parse, an unrecognized token is tolerated (skipped) exactly
when it is the first token the body loop reads after the header — the
binary-marker line — and any unrecognized token after that first iteration
fails with INVALID_LINE. -/
theorem parse_invalid_line_tolerance (toks : List String)
    (hne : ∀ t ∈ toks, t ≠ "") :
    (parseBodyLoop toks true = .error .invalidLine ↔
        ∃ u ∈ toks.drop 1, invalidTok u = true) ∧
    (∀ t rest, invalidTok t = true → t ≠ "" →
        parseBodyLoop (t :: rest) true = parseBodyLoop rest false) := by
  constructor
  · cases toks with
    | nil => simp [parseBodyLoop]
    | cons t rest =>
      have ht : t ≠ "" := hne t (List.mem_cons_self _ _)
      have hlen : ¬ t.length = 0 := strLen_ne_zero t ht
      have hrest := parseBodyLoop_false_iff rest
        (fun u hu => hne u (List.mem_cons_of_mem _ hu))
      simp only [parseBodyLoop, if_neg hlen, List.drop_succ_cons, List.drop_zero]
      by_cases hv : invalidTok t = false
      · rw [if_pos hv]
        exact hrest
      · rw [if_neg hv]
        simp only [eq_self_iff_true, if_true]
        exact hrest
  · intro t rest hv htne
    have hlen : ¬ t.length = 0 := strLen_ne_zero t htne
    simp [parseBodyLoop, hlen, hv]

/-- Witness for parse_invalid_line_tolerance: an unrecognized binary-marker
token first, then an object start, then an unrecognized token. -/
theorem parse_invalid_line_tolerance_witness :
    (∀ t ∈ ["binary", "1", "bad"], t ≠ "") ∧
    ((parseBodyLoop ["binary", "1", "bad"] true = .error .invalidLine ↔
        ∃ u ∈ ["binary", "1", "bad"].drop 1, invalidTok u = true) ∧
     (∀ t rest, invalidTok t = true → t ≠ "" →
        parseBodyLoop (t :: rest) true = parseBodyLoop rest false)) :=
  ⟨by decide, parse_invalid_line_tolerance ["binary", "1", "bad"] (by decide)⟩

/-! ### Stream-parsing error behaviour (claim C2) -/

/-- The direct /Length attempt never raises INVALID_STREAM (its only error
is TRUNCATED_FILE, from nextToken at EOF). -/
theorem directAttempt_ne_invalidStream (dict : Dict) (src : Bytes)
    (s : Nat) (fd : Int) :
    directAttempt dict src s fd ≠ .error .invalidStream := by
  unfold directAttempt
  split
  · split
    · intro h
      injection h with h
      cases h
    · split
      · intro h
        cases h
      · intro h
        cases h
  · intro h
    cases h

/-- The recovery scan never raises INVALID_STREAM (its only error is
TRUNCATED_FILE, when no "endstream" is found before EOF). -/
theorem recoveryScan_ne_invalidStream (src : Bytes) (s : Nat) (fd : Int) :
    recoveryScan src s fd ≠ .error .invalidStream := by
  unfold recoveryScan
  split
  · intro h
    injection h with h
    cases h
  · intro h
    cases h

/-- C2 counterexample: a stream whose dictionary lacks /Length but whose
body is followed by the literal "endstream" raises InvalidStream — the
recovery scan is never consulted — whereas the claim says it parses
successfully. -/
theorem parseStream_noLength_despite_endstream :
    (findSubList ("xx endstream\n".data) ("endstream".data)).isSome = true ∧
    parseStream [] ("xx endstream\n".data) 0 ' ' 3 = .error .invalidStream :=
  ⟨rfl, rfl⟩

/-- C2 amended: parseStream raises InvalidStream exactly when the enclosing
dictionary of the enclosing object has no /Length key — the check precedes any scan, so a
stream lacking /Length fails even when "endstream" follows; when /Length is
present the fallback scan runs, and a missing "endstream" raises
TruncatedFile, never InvalidStream. -/
theorem parseStream_invalidStream_iff (dict : Dict) (src : Bytes) (pos : Nat)
    (c : Char) (fd : Int) :
    parseStream dict src pos c fd = .error .invalidStream ↔
      dictHasKey dict "Length" = false := by
  unfold parseStream
  by_cases h : dictHasKey dict "Length" = true
  · rw [if_neg (by simp [h])]
    refine iff_of_false ?_ (by simp [h])
    cases hd : directAttempt dict src (streamStart src pos c) fd with
    | error e =>
      intro heq
      injection heq with he
      exact directAttempt_ne_invalidStream dict src (streamStart src pos c) fd
        (hd.trans (by rw [he]))
    | ok o =>
      cases o with
      | some r =>
        intro heq
        cases heq
      | none =>
        exact recoveryScan_ne_invalidStream src (streamStart src pos c) fd
  · have hf : dictHasKey dict "Length" = false := by
      revert h
      cases dictHasKey dict "Length" <;> simp
    rw [if_pos (by simp [hf])]
    exact iff_of_true rfl hf

/-! ### Number-or-reference disambiguation (claim C3) -/

/-- C3 counterexample: first token "12", second token "99999999999" (whose
stoi throws std::out_of_range, not std::invalid_argument), third token "R".
The catch clause only stops std::invalid_argument, so the exception
propagates: the claimed rewind-and-return of Integer(12) does not happen. -/
theorem parseNumberOrReference_outOfRange_escapes :
    tokenToNumber "99999999999" '\x00' = .error .outOfRange ∧
    parseNumberOrReference (" 99999999999 R ".data) 0 "12"
      = .error (.std .outOfRange) ∧
    parseNumberOrReference (" 99999999999 R ".data) 0 "12"
      ≠ .ok (.integer 12 false, 0) :=
  ⟨rfl, rfl,
   fun h => Except.noConfusion
     ((rfl : parseNumberOrReference (" 99999999999 R ".data) 0 "12"
        = .error (.std .outOfRange)).symm.trans h)⟩

/-- C3 amended: from an Integer first token, two more tokens are read; if
the second parses as an Integer and the third is exactly "R", the result is
Reference(first, second) with the cursor after the R; otherwise — second
token a Real, third token not "R", or second token failing to parse with
std::invalid_argument — the cursor is repositioned to just before the two
tentative tokens and the original Integer is returned.  A second token
overflowing int instead raises std::out_of_range, which is not caught. -/
theorem parseNumberOrReference_spec (src : Bytes) (pos : Nat) (tok : String)
    (n : Int) (sg : Bool) (r2 r3 : TokResult)
    (h1 : tokenToNumber tok '\x00' = .ok (.integer n sg))
    (h2 : nextToken src pos true false = some r2)
    (h3 : nextToken src r2.pos true false = some r3) :
    (∀ g gs, tokenToNumber r2.tok '\x00' = .ok (.integer g gs) → r3.tok = "R" →
        parseNumberOrReference src pos tok = .ok (.reference n g, r3.pos)) ∧
    (tokenToNumber r2.tok '\x00' = .error .invalidArg →
        parseNumberOrReference src pos tok = .ok (.integer n sg, pos)) ∧
    (∀ g gs, tokenToNumber r2.tok '\x00' = .ok (.integer g gs) → r3.tok ≠ "R" →
        parseNumberOrReference src pos tok = .ok (.integer n sg, pos)) ∧
    (∀ rt rs, tokenToNumber r2.tok '\x00' = .ok (.real rt rs) →
        parseNumberOrReference src pos tok = .ok (.integer n sg, pos)) ∧
    (tokenToNumber r2.tok '\x00' = .error .outOfRange →
        parseNumberOrReference src pos tok = .error (.std .outOfRange)) := by
  refine ⟨?_, ?_, ?_, ?_, ?_⟩
  · intro g gs hg hr
    simp only [parseNumberOrReference, h1, h2, h3, hg, hr, if_pos]
  · intro hinv
    simp only [parseNumberOrReference, h1, h2, h3, hinv]
  · intro g gs hg hr
    simp only [parseNumberOrReference, h1, h2, h3, hg, if_neg hr]
  · intro rt rs hg
    simp only [parseNumberOrReference, h1, h2, h3, hg]
  · intro hoor
    simp only [parseNumberOrReference, h1, h2, h3, hoor]

/-- Witness for parseNumberOrReference_spec: the token sequence
`12 0 R` fuses into Reference(12,0). -/
theorem parseNumberOrReference_spec_witness :
    (tokenToNumber "12" '\x00' = .ok (.integer 12 false) ∧
     nextToken (" 0 R x".data) 0 true false = some ⟨"0", 2, 1, ' '⟩ ∧
     nextToken (" 0 R x".data) 2 true false = some ⟨"R", 4, 3, ' '⟩ ∧
     tokenToNumber "0" '\x00' = .ok (.integer 0 false)) ∧
    parseNumberOrReference (" 0 R x".data) 0 "12" = .ok (.reference 12 0, 4) :=
  ⟨⟨rfl, rfl, rfl, rfl⟩,
   (parseNumberOrReference_spec (" 0 R x".data) 0 "12" 12 false
      ⟨"0", 2, 1, ' '⟩ ⟨"R", 4, 3, ' '⟩ rfl rfl rfl).1 0 false rfl rfl⟩

/-! ### Full-rewrite xref offset correctness (claim C1) -/

theorem bodyBytes_append (src : Bytes) (l₁ l₂ : List Object) :
    bodyBytes src (l₁ ++ l₂) = bodyBytes src l₁ ++ bodyBytes src l₂ := by
  induction l₁ with
  | nil => simp [bodyBytes]
  | cons o t ih => simp [bodyBytes, ih]

theorem rowsFrom_append (src : Bytes) (l₁ l₂ : List Object) : ∀ b : Nat,
    rowsFrom src b (l₁ ++ l₂)
      = rowsFrom src b l₁ ++ rowsFrom src (b + (bodyBytes src l₁).length) l₂ := by
  induction l₁ with
  | nil => intro b; simp [rowsFrom, bodyBytes]
  | cons o t ih =>
    intro b
    show xrefRow o b ++ rowsFrom src (b + (objB src o).length) (t ++ l₂)
        = (xrefRow o b ++ rowsFrom src (b + (objB src o).length) t)
          ++ rowsFrom src (b + (bodyBytes src (o :: t)).length) l₂
    rw [ih, List.append_assoc]
    have h : b + (bodyBytes src (o :: t)).length
        = b + (objB src o).length + (bodyBytes src t).length := by
      simp only [bodyBytes, List.length_append]
      omega
    rw [h]

/-- The write loop appends the serializations of the objects to the output and the
corresponding rows (computed at the running output length) to the xref
accumulator. -/
theorem writeLoop_spec (src : Bytes) : ∀ (objs : List Object)
    (out xref : Bytes) (m x : Int),
    (writeLoop src objs out xref m x).1 = out ++ bodyBytes src objs ∧
    (writeLoop src objs out xref m x).2.1 = xref ++ rowsFrom src out.length objs := by
  intro objs
  induction objs with
  | nil =>
    intro out xref m x
    simp [writeLoop, bodyBytes, rowsFrom]
  | cons o t ih =>
    intro out xref m x
    simp only [writeLoop]
    obtain ⟨ho, hx⟩ := ih (out ++ objB src o) (xref ++ xrefRow o out.length)
      (if o.objectId > m then o.objectId else m)
      (if isXRefObj src o then Int.ofNat out.length else x)
    constructor
    · rw [ho]
      simp [bodyBytes, List.append_assoc]
    · rw [hx]
      simp [rowsFrom, List.append_assoc, List.length_append]

/-- C1: after a full rewrite, for every object in the object list of the
document, the 10-digit offset recorded in the emitted xref row of that
object equals
the byte position in the output file at which its `<id> <gen> obj` text
begins: row i of the accumulated xref is the row for object i carrying
objOffsetAt i, and the output bytes at objOffsetAt i start with the object's
header line. -/
theorem write_xref_offset_correct (src : Bytes) (vMajor vMinor : Int)
    (objs : List Object) (trailer : Dict) (i : Nat) (hi : i < objs.length) :
    (∃ post,
      (writeLoop src objs (headerBytes vMajor vMinor) xrefHead 0 0).2.1
        = xrefHead ++ rowsFrom src (headerBytes vMajor vMinor).length (objs.take i)
          ++ xrefRow (objs.get ⟨i, hi⟩)
              (objOffsetAt src (headerBytes vMajor vMinor).length objs i) ++ post) ∧
    (∃ rest,
      (writeOutput src vMajor vMinor objs trailer).drop
          (objOffsetAt src (headerBytes vMajor vMinor).length objs i)
        = (objHeaderS (objs.get ⟨i, hi⟩)).data ++ rest) := by
  have hsplit : objs = objs.take i ++ objs.get ⟨i, hi⟩ :: objs.drop (i + 1) := by
    conv_lhs => rw [← List.take_append_drop i objs]
    rw [List.drop_eq_get_cons hi]
  constructor
  · refine ⟨rowsFrom src
      (objOffsetAt src (headerBytes vMajor vMinor).length objs i
        + (objB src (objs.get ⟨i, hi⟩)).length) (objs.drop (i + 1)), ?_⟩
    rw [(writeLoop_spec src objs (headerBytes vMajor vMinor) xrefHead 0 0).2]
    conv_lhs => rw [hsplit]
    rw [rowsFrom_append]
    simp only [rowsFrom, objOffsetAt, List.append_assoc]
  · obtain ⟨tail, htail⟩ : ∃ tail, writeOutput src vMajor vMinor objs trailer
        = (writeLoop src objs (headerBytes vMajor vMinor) xrefHead 0 0).1 ++ tail := by
      refine ⟨(writeLoop src objs (headerBytes vMajor vMinor) xrefHead 0 0).2.1
        ++ (("trailer" ++ "\n").data
          ++ ((dictStrFold src (writeTrailerDict trailer
                (writeLoop src objs (headerBytes vMajor vMinor) xrefHead 0 0).2.2.1
                (writeLoop src objs (headerBytes vMajor vMinor) xrefHead 0 0).2.2.2)
              "<<" ++ ">>\n").data
            ++ ("startxref" ++ "\n"
              ++ toString (writeLoop src objs (headerBytes vMajor vMinor) xrefHead 0 0).1.length
              ++ "\n" ++ "%%EOF").data)), ?_⟩
      show (writeLoop src objs (headerBytes vMajor vMinor) xrefHead 0 0).1
          ++ (writeLoop src objs (headerBytes vMajor vMinor) xrefHead 0 0).2.1
          ++ ("trailer" ++ "\n").data
          ++ (dictStrFold src (writeTrailerDict trailer
                (writeLoop src objs (headerBytes vMajor vMinor) xrefHead 0 0).2.2.1
                (writeLoop src objs (headerBytes vMajor vMinor) xrefHead 0 0).2.2.2)
              "<<" ++ ">>\n").data
          ++ ("startxref" ++ "\n"
              ++ toString (writeLoop src objs (headerBytes vMajor vMinor) xrefHead 0 0).1.length
              ++ "\n" ++ "%%EOF").data
        = _
      simp only [List.append_assoc]
    have hbody : bodyBytes src objs
        = bodyBytes src (objs.take i)
          ++ ((objHeaderS (objs.get ⟨i, hi⟩)).data
            ++ ((objTail src (objs.get ⟨i, hi⟩)).data
              ++ bodyBytes src (objs.drop (i + 1)))) := by
      conv_lhs => rw [hsplit]
      rw [bodyBytes_append]
      simp only [bodyBytes, objB, Object.str, String.data_append, List.append_assoc]
    refine ⟨(objTail src (objs.get ⟨i, hi⟩)).data
      ++ (bodyBytes src (objs.drop (i + 1)) ++ tail), ?_⟩
    rw [htail, (writeLoop_spec src objs (headerBytes vMajor vMinor) xrefHead 0 0).1,
      hbody]
    have hlen : objOffsetAt src (headerBytes vMajor vMinor).length objs i
        = (headerBytes vMajor vMinor ++ bodyBytes src (objs.take i)).length := by
      simp [objOffsetAt, List.length_append]
    rw [hlen]
    simp only [List.append_assoc]
    rw [← List.append_assoc (headerBytes vMajor vMinor)
      (bodyBytes src (objs.take i)), List.drop_left]

/-- Witness for write_xref_offset_correct: a one-object document. -/
theorem write_xref_offset_correct_witness :
    (0 < [Object.mk6 1 0 0 false 0 true].length) ∧
    ((∃ post,
       (writeLoop [] [Object.mk6 1 0 0 false 0 true] (headerBytes 1 6) xrefHead 0 0).2.1
         = xrefHead
           ++ rowsFrom [] (headerBytes 1 6).length
                ([Object.mk6 1 0 0 false 0 true].take 0)
           ++ xrefRow ([Object.mk6 1 0 0 false 0 true].get ⟨0, Nat.zero_lt_one⟩)
               (objOffsetAt [] (headerBytes 1 6).length
                 [Object.mk6 1 0 0 false 0 true] 0) ++ post) ∧
     (∃ rest,
       (writeOutput [] 1 6 [Object.mk6 1 0 0 false 0 true] []).drop
           (objOffsetAt [] (headerBytes 1 6).length
             [Object.mk6 1 0 0 false 0 true] 0)
         = (objHeaderS ([Object.mk6 1 0 0 false 0 true].get ⟨0, Nat.zero_lt_one⟩)).data
           ++ rest)) :=
  ⟨Nat.zero_lt_one,
   write_xref_offset_correct [] 1 6 [Object.mk6 1 0 0 false 0 true] [] 0
     Nat.zero_lt_one⟩

end UPDF
